import Mathlib

/-!
Shallow embedding of the patched-sync client-side synchronization engine
(`src/patched-sync.js`) and proofs about its merge algorithm, exchange
protocol, history ledger and constructor validation.

JavaScript values are modelled by the `JVal` tree; machine details that the
engine relies on (strict-mode property assignment on primitives, `typeof`,
truthiness, `Object.keys`, `Array.prototype.splice` index clamping) are
modelled explicitly.  The external Patch Codec (the `jiff` npm dependency)
is not part of this repository; it is modelled from the spec where needed.
-/

namespace PatchedSync

/-- A JavaScript (JSON-extended) runtime value: `undefined`, `null`,
booleans, numbers (integral; the engine never does float arithmetic),
strings, arrays, and plain objects as insertion-ordered key/value lists.
Objects originating from JS always have distinct keys. -/
inductive JVal where
  | undefined : JVal
  | null : JVal
  | bool : Bool → JVal
  | num : Int → JVal
  | str : String → JVal
  | arr : List JVal → JVal
  | obj : List (String × JVal) → JVal

/-- The sentinel `PatchedSync.DELETE` (line 319): the magic delete sentinel string. -/
def DELETE : JVal := .str "$$__&&__DELETE_$_&_$"

/-- Test `value === PatchedSync.DELETE` — strict equality against the string
sentinel (only a string can compare equal to it). -/
def isDELETE : JVal → Bool
  | .str s => s = "$$__&&__DELETE_$_&_$"
  | _ => false

/-- Test for `undefined` (the `v !== undefined` guard). -/
def isUndefined : JVal → Bool
  | .undefined => true
  | _ => false

/-- JavaScript truthiness.  (`NaN` does not arise: numbers are integral.) -/
def truthy : JVal → Bool
  | .undefined => false
  | .null => false
  | .bool b => b
  | .num n => n != 0
  | .str s => s != ""
  | .arr _ => true
  | .obj _ => true

/-- Test `typeof v === "object"` — true for `null`, arrays and objects. -/
def typeofObject : JVal → Bool
  | .null => true
  | .arr _ => true
  | .obj _ => true
  | _ => false

/-- Test `Array.isArray(v)`. -/
def isArray : JVal → Bool
  | .arr _ => true
  | _ => false

/-- First-occurrence lookup in an insertion-ordered key/value list. -/
def lookupKV : List (String × JVal) → String → Option JVal
  | [], _ => none
  | (k, v) :: rest, key => if k = key then some v else lookupKV rest key

/-- JS property write on an object: an existing key is updated in place,
a new key is appended at the end (insertion order). -/
def setKV : List (String × JVal) → String → JVal → List (String × JVal)
  | [], key, val => [(key, val)]
  | (k, v) :: rest, key, val =>
      if k = key then (k, val) :: rest else (k, v) :: setKV rest key val

/-- JS `delete obj[key]`: the key is removed from the object. -/
def eraseKV (l : List (String × JVal)) (key : String) : List (String × JVal) :=
  l.filter (fun kv => kv.1 ≠ key)

/-- Canonical decimal digits → `Nat` (used for array index property keys). -/
def digitsToNat? (cs : List Char) : Option Nat :=
  if cs = [] ∨ ¬ cs.all (·.isDigit) then none
  else some (cs.foldl (fun n c => n * 10 + (c.toNat - '0'.toNat)) 0)

/-- Read `subject[key]` — strict-mode JS property read.  Reading a property of
`null`/`undefined` throws; primitives autobox (strings expose `length` and
index properties); a missing property reads as `undefined`. -/
def propRead (subject : JVal) (key : String) : Except String JVal :=
  match subject with
  | .undefined => .error "TypeError: Cannot read properties of undefined"
  | .null => .error "TypeError: Cannot read properties of null"
  | .obj kvs => .ok ((lookupKV kvs key).getD .undefined)
  | .arr xs =>
      if key = "length" then .ok (.num xs.length)
      else
        match digitsToNat? key.toList with
        | some i => .ok ((xs.get? i).getD .undefined)
        | none => .ok .undefined
  | .str s =>
      if key = "length" then .ok (.num s.length)
      else
        match digitsToNat? key.toList with
        | some i => .ok (((s.toList.get? i).map (fun c => JVal.str (String.mk [c]))).getD .undefined)
        | none => .ok .undefined
  | _ => .ok .undefined

/-- Write element `i` of an array, padding holes with `undefined`. -/
def writeIdx (xs : List JVal) (i : Nat) (v : JVal) : List JVal :=
  if i < xs.length then xs.set i v
  else xs ++ List.replicate (i - xs.length) .undefined ++ [v]

/-- Write `subject[key] = v` — strict-mode JS property write.  On an object the
key is set; on `null`/`undefined` or a primitive it throws a `TypeError`
(the source is an ES module, hence strict mode).  Arrays take numeric
indices (string-keyed expando properties on arrays are not representable;
`deepChange` never writes to an array subject, its array branch comes
first). -/
def assignProp (subject : JVal) (key : String) (v : JVal) : Except String JVal :=
  match subject with
  | .obj kvs => .ok (.obj (setKV kvs key v))
  | .arr xs =>
      match digitsToNat? key.toList with
      | some i => .ok (.arr (writeIdx xs i v))
      | none => .ok (.arr xs)
  | .undefined => .error "TypeError: Cannot set properties of undefined"
  | .null => .error "TypeError: Cannot set properties of null"
  | _ => .error "TypeError: Cannot create property on primitive"

/-- Delete `subject[key]`.  On primitives there is no own configurable
property to remove (unreachable from `deepChange`: it is guarded by a
preceding write that would have thrown). -/
def deleteProp (subject : JVal) (key : String) : JVal :=
  match subject with
  | .obj kvs => .obj (eraseKV kvs key)
  | .arr xs =>
      match digitsToNat? key.toList with
      | some i => .arr (if i < xs.length then xs.set i .undefined else xs)
      | none => .arr xs
  | v => v

/-- Coercion `ToIntegerOrInfinity` as used by `splice` for its index argument
(numbers pass through, `NaN`-producing inputs give 0). -/
def jsToInt : JVal → Int
  | .num n => n
  | .bool true => 1
  | .str s =>
      match s.toList with
      | '-' :: cs => - (((digitsToNat? cs).getD 0 : Nat) : Int)
      | cs => ((digitsToNat? cs).getD 0 : Nat)
  | _ => 0

/-- Start-index clamping of `Array.prototype.splice`: negative indices count
from the end (clamped at 0), positive ones are clamped at the length. -/
def spliceIndex (len : Nat) (idx : Int) : Nat :=
  if idx < 0 then (len + idx).toNat else min idx.toNat len

/-- One iteration of the `operations` loop (patched-sync.js lines 207-221):
`switch (operation.op)` with `push` / `splice` / `unshift` / `remove`
mapping to their JavaScript array counterparts; an unrecognized `op` is a
no-op.  Reading `.op` of a `null`/`undefined` element throws. -/
def applyOneOp (xs : List JVal) (operation : JVal) : Except String (List JVal) :=
  match propRead operation "op" with
  | .error e => .error e
  | .ok opName =>
    match opName with
    | .str "push" =>
        match propRead operation "value" with
        | .error e => .error e
        | .ok v => .ok (xs ++ [v])
    | .str "splice" =>
        match propRead operation "index" with
        | .error e => .error e
        | .ok idx =>
          match propRead operation "value" with
          | .error e => .error e
          | .ok v => .ok (xs.insertIdx (spliceIndex xs.length (jsToInt idx)) v)
    | .str "unshift" =>
        match propRead operation "value" with
        | .error e => .error e
        | .ok v => .ok (v :: xs)
    | .str "remove" =>
        match propRead operation "index" with
        | .error e => .error e
        | .ok idx => .ok (xs.eraseIdx (spliceIndex xs.length (jsToInt idx)))
    | _ => .ok xs

/-- Loop bound of `for (index = 0; index < operations.length; index++)`:
array/string length, a numeric `length` property on a plain object, and
otherwise 0 (a missing `length` reads as `undefined` and
`index < undefined` never holds). -/
def loopLength : JVal → Nat
  | .arr xs => xs.length
  | .str s => s.length
  | .obj kvs =>
      match lookupKV kvs "length" with
      | some (.num n) => n.toNat
      | _ => 0
  | _ => 0

/-- Read `operations[index]` inside the loop. -/
def indexRead (ops : JVal) (i : Nat) : JVal :=
  match ops with
  | .arr xs => (xs.get? i).getD .undefined
  | .obj kvs => (lookupKV kvs (toString i)).getD .undefined
  | .str s => ((s.toList.get? i).map (fun c => JVal.str (String.mk [c]))).getD .undefined
  | _ => .undefined

/-- The `operations` loop, iterating `count` times from index `i`. -/
def runOpsAux (ops : JVal) : Nat → Nat → List JVal → Except String (List JVal)
  | _, 0, xs => .ok xs
  | i, n + 1, xs =>
      match applyOneOp xs (indexRead ops i) with
      | .error e => .error e
      | .ok xs1 => runOpsAux ops (i + 1) n xs1

def runOps (xs : List JVal) (ops : JVal) : Except String (List JVal) :=
  runOpsAux ops 0 (loopLength ops) xs

/-- The array branch of `deepChange` (lines 201-223): an array change
replaces the subject wholesale; an object change with a truthy
`operations` property runs the operations loop; anything else leaves the
subject unchanged (reading `.operations` of `null`/`undefined` throws). -/
def applyArrayBranch (xs : List JVal) (changes : JVal) : Except String JVal :=
  match changes with
  | .arr ys => .ok (.arr ys)
  | _ =>
    match propRead changes "operations" with
    | .error e => .error e
    | .ok ops =>
      if truthy ops then
        match runOps xs ops with
        | .error e => .error e
        | .ok final => .ok (.arr final)
      else .ok (.arr xs)

mutual

/-- The recursive `deepChange(subject, changes)` closure of `change()`
(patched-sync.js lines 200-249), translated branch for branch:
array subjects take the array branch; `typeof changes === "object"`
(true of `null`, arrays and plain objects) enumerates `Object.keys(changes)`
(`Object.keys(null)` throws, array keys are element indices); any other
`changes` value replaces the subject. -/
def deepChange (subject changes : JVal) : Except String JVal :=
  match subject with
  | .arr xs => applyArrayBranch xs changes
  | _ =>
    match changes with
    | .obj kvs => deepChangeEntries subject kvs
    | .arr ys => deepChangeArrEntries subject 0 ys
    | .null => .error "TypeError: Cannot convert undefined or null to object"
    | c => .ok c
termination_by (sizeOf changes, 0)

/-- The loop body for one key of `changes` (lines 227-242): if the subject
already holds a truthy value at the key and the new value is
`typeof "object"`, recurse and assign; otherwise `switch (value)` — the
`DELETE` case deletes the key but, lacking a `break`, falls through to the
`default` reassignment. -/
def deepChangeStep (subject : JVal) (key : String) (value : JVal) : Except String JVal :=
  match propRead subject key with
  | .error e => .error e
  | .ok cur =>
    if truthy cur && typeofObject value then
      match deepChange cur value with
      | .error e => .error e
      | .ok merged => assignProp subject key merged
    else if isDELETE value then
      let deleted : Except String JVal :=
        if isUndefined cur then .ok subject
        else
          match assignProp subject key .null with
          | .error e => .error e
          | .ok s1 => .ok (deleteProp s1 key)
      match deleted with
      | .error e => .error e
      | .ok s2 => assignProp s2 key value
    else assignProp subject key value
termination_by (sizeOf value, 1)

/-- The key loop over `Object.keys(changes)` when `changes` is an object. -/
def deepChangeEntries (subject : JVal) (entries : List (String × JVal)) :
    Except String JVal :=
  match entries with
  | [] => .ok subject
  | (key, value) :: rest =>
    match deepChangeStep subject key value with
    | .error e => .error e
    | .ok subject1 => deepChangeEntries subject1 rest
termination_by (sizeOf entries, 1)

/-- The key loop over `Object.keys(changes)` when `changes` is an array
(keys are the element indices as strings). -/
def deepChangeArrEntries (subject : JVal) (i : Nat) (elems : List JVal) :
    Except String JVal :=
  match elems with
  | [] => .ok subject
  | value :: rest =>
    match deepChangeStep subject (toString i) value with
    | .error e => .error e
    | .ok subject1 => deepChangeArrEntries subject1 (i + 1) rest
termination_by (sizeOf elems, 1)

end

/-! ## The Patch Codec

Modelled from the spec: the Patch Codec is the external `jiff` npm
dependency, not part of this repository ("treated as an external primitive
dependency", spec section 2).  A PatchDocument is an ordered sequence of
operations `{op, path, value?, from?}` with `op` one of
add/remove/replace/move/copy/test and slash-delimited pointer paths
(spec sections 3 and 6); application is in document order. -/

/-- One patch operation.  `src` holds the `from` field of move/copy. -/
structure POp where
  op : String
  path : String
  value : JVal := .undefined
  src : String := ""

/-- Unescape one JSON-pointer segment (`~1` → `/`, then `~0` → `~`). -/
def unescapeSeg : List Char → List Char
  | [] => []
  | '~' :: '1' :: rest => '/' :: unescapeSeg rest
  | '~' :: '0' :: rest => '~' :: unescapeSeg rest
  | c :: rest => c :: unescapeSeg rest

/-- Split a character list on `/`. -/
def splitSlash : List Char → List (List Char)
  | [] => [[]]
  | '/' :: rest => [] :: splitSlash rest
  | c :: rest =>
      match splitSlash rest with
      | seg :: segs => (c :: seg) :: segs
      | [] => [[c]]

/-- Parse a JSON pointer: `""` addresses the root, otherwise the path must
start with `/`; segments are slash-delimited and unescaped. -/
def parsePointer (p : String) : Option (List String) :=
  match p.toList with
  | [] => some []
  | '/' :: rest => some ((splitSlash rest).map (fun cs => String.mk (unescapeSeg cs)))
  | _ => none

/-- Resolve a pointer to the value it addresses. -/
def getAtPath : JVal → List String → Except String JVal
  | v, [] => .ok v
  | .obj kvs, seg :: rest =>
      match lookupKV kvs seg with
      | some child => getAtPath child rest
      | none => .error "patch: path does not exist"
  | .arr xs, seg :: rest =>
      match digitsToNat? seg.toList with
      | some i =>
          match xs.get? i with
          | some child => getAtPath child rest
          | none => .error "patch: array index out of bounds"
      | none => .error "patch: invalid array index"
  | _, _ :: _ => .error "patch: path does not exist"

/-- Operation `replace`: the addressed location must exist; its value is replaced. -/
def replaceAt : JVal → List String → JVal → Except String JVal
  | _, [], v => .ok v
  | .obj kvs, seg :: rest, v =>
      match lookupKV kvs seg with
      | some child =>
          match replaceAt child rest v with
          | .error e => .error e
          | .ok c => .ok (.obj (setKV kvs seg c))
      | none => .error "patch: path does not exist"
  | .arr xs, seg :: rest, v =>
      match digitsToNat? seg.toList with
      | some i =>
          match xs.get? i with
          | some child =>
              match replaceAt child rest v with
              | .error e => .error e
              | .ok c => .ok (.arr (xs.set i c))
          | none => .error "patch: array index out of bounds"
      | none => .error "patch: invalid array index"
  | _, _ :: _, _ => .error "patch: path does not exist"

/-- Operation `add`: in an object the key is inserted or overwritten; in an array the
value is inserted before the given index (`-` appends). -/
def addAt : JVal → List String → JVal → Except String JVal
  | _, [], v => .ok v
  | .obj kvs, seg :: rest, v =>
      match rest with
      | [] => .ok (.obj (setKV kvs seg v))
      | _ :: _ =>
          match lookupKV kvs seg with
          | some child =>
              match addAt child rest v with
              | .error e => .error e
              | .ok c => .ok (.obj (setKV kvs seg c))
          | none => .error "patch: path does not exist"
  | .arr xs, seg :: rest, v =>
      match rest with
      | [] =>
          if seg = "-" then .ok (.arr (xs ++ [v]))
          else
            match digitsToNat? seg.toList with
            | some i =>
                if i ≤ xs.length then .ok (.arr (xs.insertIdx i v))
                else .error "patch: array index out of bounds"
            | none => .error "patch: invalid array index"
      | _ :: _ =>
          match digitsToNat? seg.toList with
          | some i =>
              match xs.get? i with
              | some child =>
                  match addAt child rest v with
                  | .error e => .error e
                  | .ok c => .ok (.arr (xs.set i c))
              | none => .error "patch: array index out of bounds"
          | none => .error "patch: invalid array index"
  | _, _ :: _, _ => .error "patch: path does not exist"

/-- Operation `remove`: the addressed location must exist; it is deleted. -/
def removeAt : JVal → List String → Except String JVal
  | _, [] => .error "patch: cannot remove the document root"
  | .obj kvs, seg :: rest =>
      match rest with
      | [] =>
          if (lookupKV kvs seg).isSome then .ok (.obj (eraseKV kvs seg))
          else .error "patch: path does not exist"
      | _ :: _ =>
          match lookupKV kvs seg with
          | some child =>
              match removeAt child rest with
              | .error e => .error e
              | .ok c => .ok (.obj (setKV kvs seg c))
          | none => .error "patch: path does not exist"
  | .arr xs, seg :: rest =>
      match digitsToNat? seg.toList with
      | some i =>
          match rest with
          | [] =>
              if i < xs.length then .ok (.arr (xs.eraseIdx i))
              else .error "patch: array index out of bounds"
          | _ :: _ =>
              match xs.get? i with
              | some child =>
                  match removeAt child rest with
                  | .error e => .error e
                  | .ok c => .ok (.arr (xs.set i c))
              | none => .error "patch: array index out of bounds"
      | none => .error "patch: invalid array index"
  | _, _ :: _ => .error "patch: path does not exist"

mutual

/-- Structural (deep) equality of values, used by the `test` operation. -/
def beqJ : JVal → JVal → Bool
  | .undefined, .undefined => true
  | .null, .null => true
  | .bool a, .bool b => a = b
  | .num a, .num b => a = b
  | .str a, .str b => a = b
  | .arr xs, .arr ys => beqArr xs ys
  | .obj kvs, .obj lvs => beqObj kvs lvs
  | _, _ => false
termination_by a _ => sizeOf a

def beqArr : List JVal → List JVal → Bool
  | [], [] => true
  | x :: xs, y :: ys => beqJ x y && beqArr xs ys
  | _, _ => false
termination_by a _ => sizeOf a

def beqObj : List (String × JVal) → List (String × JVal) → Bool
  | [], [] => true
  | (k, v) :: kvs, (l, w) :: lvs => k = l && beqJ v w && beqObj kvs lvs
  | _, _ => false
termination_by a _ => sizeOf a

end

/-- Apply one operation to a document. -/
def applyOp (doc : JVal) (o : POp) : Except String JVal :=
  match o.op with
  | "replace" =>
      match parsePointer o.path with
      | some segs => replaceAt doc segs o.value
      | none => .error "patch: invalid pointer"
  | "add" =>
      match parsePointer o.path with
      | some segs => addAt doc segs o.value
      | none => .error "patch: invalid pointer"
  | "remove" =>
      match parsePointer o.path with
      | some segs => removeAt doc segs
      | none => .error "patch: invalid pointer"
  | "test" =>
      match parsePointer o.path with
      | some segs =>
          match getAtPath doc segs with
          | .error e => .error e
          | .ok v => if beqJ v o.value then .ok doc else .error "patch: test failed"
      | none => .error "patch: invalid pointer"
  | "move" =>
      match parsePointer o.src, parsePointer o.path with
      | some fsegs, some tsegs =>
          match getAtPath doc fsegs with
          | .error e => .error e
          | .ok v =>
              match removeAt doc fsegs with
              | .error e => .error e
              | .ok d1 => addAt d1 tsegs v
      | _, _ => .error "patch: invalid pointer"
  | "copy" =>
      match parsePointer o.src, parsePointer o.path with
      | some fsegs, some tsegs =>
          match getAtPath doc fsegs with
          | .error e => .error e
          | .ok v => addAt doc tsegs v
      | _, _ => .error "patch: invalid pointer"
  | _ => .error "patch: unrecognized operation"

/-- Application `jiff.patch(patch, doc)`: apply the operations in document order to a
clone of `doc` (modelled functionally). -/
def applyPatch (patch : List POp) (doc : JVal) : Except String JVal :=
  patch.foldlM applyOp doc

/-! ## The engine: state, events, and the fetch/change/patch flows

The transport round-trip is a parameter of each flow: `Except String α`
stands for the settled outcome of the awaited transport promise.  The
diff side of the external Patch Codec is likewise a parameter — the
engine never inspects the patches it produces, it only records and
sends them. -/

/-- Lifecycle event kinds (the keys of `this._listeners`). -/
inductive Ev where
  | getStart | getEnd | getError | patchStart | patchEnd | patchError
deriving DecidableEq, Repr

/-- The engine's mutable state: the canonical object and the history
ledger of patch documents. -/
structure EngineState where
  object : JVal
  history : List (List POp)

/-- The `historyAll()` accessor (lines 304-306): the full ledger. -/
def historyAll (st : EngineState) : List (List POp) := st.history

/-- The `get()` accessor (lines 153-155): a clone of the canonical object, no I/O,
no events. -/
def getClone (st : EngineState) : JVal := st.object

/-- Outcome of one engine flow: the state afterwards, the notifications
fired (in order), and the settled result of the awaited call. -/
structure StepResult where
  state : EngineState
  events : List Ev
  result : Except String JVal

/-- The `fetch()` flow (lines 145-151): notify `get:start`; await `transport.get()`
— on success the canonical object is replaced wholesale, `get:end` fires
and a clone is returned; on transport failure the rejection propagates
out of the `async` function with no further notification (there is no
`try`/`catch` in the source, so `get:error` is never fired). -/
def fetchModel (st : EngineState) (tr : Except String JVal) : StepResult :=
  match tr with
  | .ok v => ⟨⟨v, st.history⟩, [.getStart, .getEnd], .ok v⟩
  | .error e => ⟨st, [.getStart], .error e⟩

/-- The `change(obj)` flow (lines 197-262): notify `patch:start`; merge via
`deepChange`; diff old vs new; append the diff to history; await
`transport.patch` — the server counter-patch is then applied on top of
the merged state; notify `patch:end`; return a clone.  A merge failure
rejects before the diff (the in-place partial mutation of `_object` by a
throwing `deepChange` is not modelled; no claim inspects state after a
merge error).  A transport failure or a failing counter-patch rejects
after the history append, with no `patch:error` notification. -/
def changeModel (st : EngineState) (c : JVal)
    (diff : JVal → JVal → List POp) (tr : Except String (List POp)) : StepResult :=
  match deepChange st.object c with
  | .error e => ⟨st, [.patchStart], .error e⟩
  | .ok merged =>
    let hist := st.history ++ [diff st.object merged]
    match tr with
    | .error e => ⟨⟨merged, hist⟩, [.patchStart], .error e⟩
    | .ok sp =>
      match applyPatch sp merged with
      | .error e => ⟨⟨merged, hist⟩, [.patchStart], .error e⟩
      | .ok fin => ⟨⟨fin, hist⟩, [.patchStart, .patchEnd], .ok fin⟩

/-- The `patch(obj)` flow (lines 271-283): same protocol as `change` but the diff is
taken directly against the provided full object and applied locally,
with no merge step. -/
def patchModel (st : EngineState) (target : JVal)
    (diff : JVal → JVal → List POp) (tr : Except String (List POp)) : StepResult :=
  let p := diff st.object target
  let hist := st.history ++ [p]
  match applyPatch p st.object with
  | .error e => ⟨⟨st.object, hist⟩, [.patchStart], .error e⟩
  | .ok localObj =>
    match tr with
    | .error e => ⟨⟨localObj, hist⟩, [.patchStart], .error e⟩
    | .ok sp =>
      match applyPatch sp localObj with
      | .error e => ⟨⟨localObj, hist⟩, [.patchStart], .error e⟩
      | .ok fin => ⟨⟨fin, hist⟩, [.patchStart, .patchEnd], .ok fin⟩

/-! ## Constructor validation (lines 34-82) -/

/-- Which transport the constructor ends up with. -/
inductive TransportChoice where
  | noTransport | xmlhttprequest | fetchHttp | websocket | custom
deriving DecidableEq, Repr

/-- The constructor's validation logic, translated check for check:
a falsy `config` throws; a truthy `config.transport` that is a string
dispatches on the three recognized tags (each checking its required
parameters, the default arm throwing), a `typeof "object"` value is
accepted as a ready transport, and any other truthy value throws; a falsy
`config.transport` skips transport setup entirely and the constructor
completes.  Transport instantiation itself (the excluded thin I/O
wrappers) is modelled as always succeeding. -/
def construct (config : JVal) : Except String TransportChoice :=
  if ¬ truthy config then
    .error "A configuration object is required as the first parameter of the constructor."
  else
    match propRead config "transport" with
    | .error e => .error e
    | .ok t =>
      if truthy t then
        match t with
        | .str tag =>
          if tag = "xmlhttprequest" then
            match propRead config "get_url", propRead config "patch_url" with
            | .ok g, .ok p =>
                if ¬ truthy g then .error "Get URL must be defined (config.get_url)"
                else if ¬ truthy p then .error "Patch URL must be defined (config.patch_url)"
                else .ok .xmlhttprequest
            | _, _ => .error "unreachable: config is truthy"
          else if tag = "fetch" then
            match propRead config "get_url", propRead config "patch_url" with
            | .ok g, .ok p =>
                if ¬ truthy g then .error "Get URL must be defined (config.get_url)"
                else if ¬ truthy p then .error "Patch URL must be defined (config.patch_url)"
                else .ok .fetchHttp
            | _, _ => .error "unreachable: config is truthy"
          else if tag = "websocket" then
            match propRead config "socket_url", propRead config "get_message",
                  propRead config "patch_message" with
            | .ok s, .ok g, .ok p =>
                if ¬ truthy s then .error "Socket URL must be defined (config.socket_url)"
                else if ¬ truthy g then .error "Get message name is required (config.get_message)"
                else if ¬ truthy p then .error "Patch message name is required (config.patch_message)"
                else .ok .websocket
            | _, _, _ => .error "unreachable: config is truthy"
          else .error "No transport was defined (config.transport)"
        | .obj _ => .ok .custom
        | .arr _ => .ok .custom
        | _ => .error "Transport must be either an object or a string."
      else .ok .noTransport

/-- Pure property read for a truthy base (where `propRead` cannot throw). -/
def propGet (v : JVal) (key : String) : JVal :=
  match propRead v key with
  | .ok x => x
  | .error _ => .undefined

/-- Test `typeof v === "string"`. -/
def isStr : JVal → Bool
  | .str _ => true
  | _ => false

/-- Number or boolean (primitives whose property reads are all `undefined`). -/
def isPrimNumBool : JVal → Bool
  | .num _ => true
  | .bool _ => true
  | _ => false

/-- A trivial diff stand-in for concrete runs (the engine never inspects
the diff's output, it only records and sends it). -/
def diff0 : JVal → JVal → List POp := fun _ _ => []

/-! ## Association-list lemmas -/

theorem lookupKV_setKV (l : List (String × JVal)) (k k' : String) (v : JVal) :
    lookupKV (setKV l k v) k' = if k = k' then some v else lookupKV l k' := by
  induction l with
  | nil => by_cases h : k = k' <;> simp [setKV, lookupKV, h]
  | cons kv rest ih =>
      obtain ⟨k0, v0⟩ := kv
      by_cases h0 : k0 = k <;> by_cases h1 : k0 = k' <;> by_cases h2 : k = k' <;>
        simp_all [setKV, lookupKV]

theorem lookupKV_eraseKV (l : List (String × JVal)) (k k' : String) :
    lookupKV (eraseKV l k) k' = if k = k' then none else lookupKV l k' := by
  induction l with
  | nil => by_cases h : k = k' <;> simp [eraseKV, lookupKV, h]
  | cons kv rest ih =>
      obtain ⟨k0, v0⟩ := kv
      by_cases h0 : k0 = k <;> by_cases h1 : k0 = k' <;> by_cases h2 : k = k' <;>
        simp_all [eraseKV, lookupKV]

theorem lookupKV_eq_none_iff (l : List (String × JVal)) (k : String) :
    lookupKV l k = none ↔ ∀ e ∈ l, e.1 ≠ k := by
  induction l with
  | nil => simp [lookupKV]
  | cons kv rest ih =>
      obtain ⟨k0, v0⟩ := kv
      by_cases h0 : k0 = k <;> simp_all [lookupKV]

/-! ## Claim theorems -/

/-- Claim C3 (code bug): merging `{a: DELETE}` into `{a:1, b:2}` does NOT
remove key `a` — the `case PatchedSync.DELETE:` arm lacks a `break`, so
after deleting the key it falls through to `default: subject[key] = value`
and reinstates the key holding the sentinel string.  The claim (and the
source's own doc comment, lines 168-170) says the key is removed. -/
theorem delete_marker_leaves_sentinel :
    deepChange (.obj [("a", .num 1), ("b", .num 2)]) (.obj [("a", DELETE)])
      = .ok (.obj [("b", .num 2), ("a", DELETE)])
    ∧ lookupKV [("b", JVal.num 2), ("a", DELETE)] "a" = some DELETE := by
  constructor
  · simp [deepChange, deepChangeEntries, deepChangeStep, propRead, lookupKV, truthy,
      typeofObject, isDELETE, isUndefined, assignProp, setKV, deleteProp, eraseKV, DELETE]
  · rfl

/-- Claim C2 (code bug): on a transport failure every flow rejects the
awaited call, but NO `:error` notification is ever fired — `fetch()` emits
only `get:start` and `change()`/`patch()` only `patch:start` (there is no
`try`/`catch` and no `notify("get:error")`/`notify("patch:error")` call
anywhere in the engine), although the claim and the source's own event
documentation (lines 90-93) say `get:error`/`patch:error` fire on
failure. -/
theorem transport_failure_fires_no_error_event (st : EngineState) (e : String)
    (c target : JVal) (diff : JVal → JVal → List POp) :
    ((fetchModel st (.error e)).events = [.getStart]
      ∧ (fetchModel st (.error e)).result = .error e)
    ∧ ((changeModel st c diff (.error e)).events = [.patchStart]
      ∧ ∃ e', (changeModel st c diff (.error e)).result = .error e')
    ∧ ((patchModel st target diff (.error e)).events = [.patchStart]
      ∧ ∃ e', (patchModel st target diff (.error e)).result = .error e') := by
  refine ⟨⟨rfl, rfl⟩, ?_, ?_⟩
  · cases h : deepChange st.object c <;> simp [changeModel, h]
  · cases h : applyPatch (diff st.object target) st.object <;> simp [patchModel, h]

/-- Claim C5 (amended): the history ledger grows by exactly one entry for
every `change()` call whose local merge completed and for every `patch()`
call — regardless of whether the transport round-trip then succeeded or
failed (the entry is appended before the await and never rolled back) —
and `fetch()` never appends. -/
theorem history_appends (st : EngineState) (c target : JVal)
    (diff : JVal → JVal → List POp) (tr : Except String (List POp))
    (trv : Except String JVal) :
    historyAll (fetchModel st trv).state = historyAll st
    ∧ (∀ merged, deepChange st.object c = .ok merged →
        historyAll (changeModel st c diff tr).state
          = historyAll st ++ [diff st.object merged])
    ∧ (∀ e, deepChange st.object c = .error e →
        historyAll (changeModel st c diff tr).state = historyAll st)
    ∧ historyAll (patchModel st target diff tr).state
        = historyAll st ++ [diff st.object target] := by
  refine ⟨?_, ?_, ?_, ?_⟩
  · cases trv <;> rfl
  · intro merged h
    cases tr with
    | error e => simp [changeModel, h, historyAll]
    | ok sp => cases h2 : applyPatch sp merged <;> simp [changeModel, h, h2, historyAll]
  · intro e h
    simp [changeModel, h, historyAll]
  · cases tr with
    | error e =>
        cases h : applyPatch (diff st.object target) st.object <;>
          simp [patchModel, h, historyAll]
    | ok sp =>
        cases h : applyPatch (diff st.object target) st.object with
        | error e1 => simp [patchModel, h, historyAll]
        | ok localObj =>
            cases h2 : applyPatch sp localObj <;> simp [patchModel, h, h2, historyAll]

/-- Witness for `history_appends`: one concrete successful `change()` run
appends exactly its diff to an empty ledger. -/
theorem history_appends_witness :
    historyAll (changeModel ⟨.obj [], []⟩ (.obj [("a", .str "x")]) diff0 (.ok [])).state
      = historyAll (⟨.obj [], []⟩ : EngineState)
        ++ [diff0 (.obj []) (.obj [("a", .str "x")])] :=
  (history_appends ⟨.obj [], []⟩ (.obj [("a", .str "x")]) (.obj []) diff0 (.ok [])
      (.ok (.obj []))).2.1 (.obj [("a", .str "x")])
    (by simp [deepChange, deepChangeEntries, deepChangeStep, propRead, lookupKV,
      truthy, typeofObject, isDELETE, assignProp, setKV])

/-- Counterexample for claim C5 as stated: a `change()` whose transport
round-trip fails (zero successfully completed calls) still leaves one
entry in the history ledger — the entry is appended before the await. -/
theorem failed_change_still_counted :
    (historyAll (changeModel ⟨.obj [], []⟩ (.obj [("a", .str "x")]) diff0
        (.error "network")).state).length = 1
    ∧ (changeModel ⟨.obj [], []⟩ (.obj [("a", .str "x")]) diff0
        (.error "network")).result = .error "network" := by
  constructor <;>
    simp [changeModel, deepChange, deepChangeEntries, deepChangeStep, propRead,
      lookupKV, truthy, typeofObject, isDELETE, assignProp, setKV, historyAll, diff0]

/-- Counterexample for claim C8 as stated: an object-shaped change against
a key holding the scalar `5` raises a strict-mode `TypeError` (property
creation on a primitive) instead of degrading to replacement. -/
theorem object_change_against_scalar_raises :
    deepChange (.obj [("a", .num 5)]) (.obj [("a", .obj [("x", .num 1)])])
      = .error "TypeError: Cannot create property on primitive" := by
  simp [deepChange, deepChangeEntries, deepChangeStep, propRead, lookupKV, truthy,
    typeofObject, isDELETE, assignProp]

/-- Claim C8 (amended): a scalar-shaped change (any value that is not
`typeof "object"`) degrades to wholesale replacement of the subject's
value without raising; but an object-shaped change applied where the
subject holds a number or boolean raises a `TypeError` (the source is an
ES module, so strict-mode property assignment on a primitive throws)
rather than degrading. -/
theorem shape_mismatch_behavior :
    (∀ (subject changes : JVal), isArray subject = false →
        typeofObject changes = false → deepChange subject changes = .ok changes)
    ∧ (∀ (prim : JVal) (k : String) (v : JVal) (rest : List (String × JVal)),
        isPrimNumBool prim = true →
        deepChange prim (.obj ((k, v) :: rest))
          = .error "TypeError: Cannot create property on primitive") := by
  constructor
  · intro subject changes h1 h2
    cases subject <;> cases changes <;> simp_all [deepChange, isArray, typeofObject]
  · intro prim k v rest h
    cases prim <;> simp_all [isPrimNumBool] <;>
      cases hd : isDELETE v <;>
        simp [deepChange, deepChangeEntries, deepChangeStep, propRead, truthy,
          typeofObject, hd, isUndefined, assignProp]

/-- Witness for `shape_mismatch_behavior`: a scalar change replaces a
scalar subject, and an object change against the number `5` raises. -/
theorem shape_mismatch_behavior_witness :
    deepChange (.str "old") (.str "new") = .ok (.str "new")
    ∧ deepChange (.num 5) (.obj [("x", .num 1)])
        = .error "TypeError: Cannot create property on primitive" :=
  ⟨shape_mismatch_behavior.1 (.str "old") (.str "new") rfl rfl,
    shape_mismatch_behavior.2 (.num 5) "x" (.num 1) [] rfl⟩

/-- A truthy value merged with a `null` change tree errors: `typeof null`
is `"object"`, so the merge recurses and then either enumerates
`Object.keys(null)` or reads `.operations` of `null`, both `TypeError`s. -/
theorem deepChange_null_changes_errors (v : JVal) (h : truthy v = true) :
    ∃ e, deepChange v .null = .error e := by
  cases v with
  | undefined => simp [truthy] at h
  | null => simp [truthy] at h
  | bool b => exact ⟨"TypeError: Cannot convert undefined or null to object",
      by simp [deepChange]⟩
  | num n => exact ⟨"TypeError: Cannot convert undefined or null to object",
      by simp [deepChange]⟩
  | str s => exact ⟨"TypeError: Cannot convert undefined or null to object",
      by simp [deepChange]⟩
  | arr xs => exact ⟨"TypeError: Cannot read properties of null",
      by simp [deepChange, applyArrayBranch, propRead]⟩
  | obj kvs => exact ⟨"TypeError: Cannot convert undefined or null to object",
      by simp [deepChange]⟩

/-- Claim C10: when the state holds a truthy value at key `k`, calling
`change({k: null})` rejects with a `TypeError` instead of assigning null —
the recursion guard treats `null` as structured (`typeof null` is
`"object"`), recurses with `null` as the change tree, and blows up on it. -/
theorem change_null_value_raises (st : EngineState) (kvs : List (String × JVal))
    (k : String) (v : JVal) (diff : JVal → JVal → List POp)
    (tr : Except String (List POp))
    (hobj : st.object = .obj kvs) (hlook : lookupKV kvs k = some v)
    (htruthy : truthy v = true) :
    ∃ e, (changeModel st (.obj [(k, .null)]) diff tr).result = .error e
      ∧ (changeModel st (.obj [(k, .null)]) diff tr).events = [.patchStart] := by
  obtain ⟨e, he⟩ := deepChange_null_changes_errors v htruthy
  have hmerge : deepChange st.object (.obj [(k, .null)]) = .error e := by
    rw [hobj]
    simp [deepChange, deepChangeEntries, deepChangeStep, propRead, hlook, htruthy,
      typeofObject, he]
  exact ⟨e, by simp [changeModel, hmerge], by simp [changeModel, hmerge]⟩

/-- Witness for `change_null_value_raises`: state `{k:"v"}`, change
`{k: null}`. -/
theorem change_null_value_raises_witness :
    ∃ e, (changeModel ⟨.obj [("k", .str "v")], []⟩ (.obj [("k", .null)]) diff0
        (.ok [])).result = .error e
      ∧ (changeModel ⟨.obj [("k", .str "v")], []⟩ (.obj [("k", .null)]) diff0
        (.ok [])).events = [.patchStart] :=
  change_null_value_raises ⟨.obj [("k", .str "v")], []⟩ [("k", .str "v")] "k"
    (.str "v") diff0 (.ok []) rfl rfl rfl

/-- One merge step at key `key` of an object subject leaves every other
key's binding untouched (each of its writes — recursion assignment,
delete-and-reassign, or plain assignment — hits only `key`). -/
theorem assignProp_obj (kvs : List (String × JVal)) (key : String) (v : JVal) :
    assignProp (.obj kvs) key v = .ok (.obj (setKV kvs key v)) := rfl

theorem deleteProp_obj (kvs : List (String × JVal)) (key : String) :
    deleteProp (.obj kvs) key = .obj (eraseKV kvs key) := rfl

theorem deepChangeStep_obj_preserves (kvs : List (String × JVal)) (key : String)
    (value : JVal) (s' : JVal) (k : String)
    (h : deepChangeStep (.obj kvs) key value = .ok s') (hk : key ≠ k) :
    ∃ kvs', s' = .obj kvs' ∧ lookupKV kvs' k = lookupKV kvs k := by
  simp only [deepChangeStep, propRead] at h
  split at h
  · -- recursion branch
    split at h
    · exact absurd h (by simp)
    · rw [assignProp_obj] at h
      injection h with h
      exact ⟨_, h.symm, by rw [lookupKV_setKV]; simp [hk]⟩
  · split at h
    · -- DELETE branch
      cases hu : isUndefined ((lookupKV kvs key).getD JVal.undefined) with
      | true =>
          -- current value undefined: only the fall-through reassignment runs
          simp only [hu, if_true, assignProp_obj] at h
          injection h with h
          exact ⟨_, h.symm, by rw [lookupKV_setKV]; simp [hk]⟩
      | false =>
          -- write null, delete, then the fall-through reassignment
          simp only [hu, Bool.false_eq_true, if_false, assignProp_obj,
            deleteProp_obj] at h
          injection h with h
          refine ⟨_, h.symm, ?_⟩
          rw [lookupKV_setKV, lookupKV_eraseKV, lookupKV_setKV]
          simp [hk]
    · -- plain assignment
      rw [assignProp_obj] at h
      injection h with h
      exact ⟨_, h.symm, by rw [lookupKV_setKV]; simp [hk]⟩

/-- The merge loop over an object-shaped change tree preserves the binding
of every key that none of the change entries mentions. -/
theorem deepChangeEntries_obj_preserves (entries : List (String × JVal)) :
    ∀ (kvs : List (String × JVal)) (res : JVal) (k : String),
      deepChangeEntries (.obj kvs) entries = .ok res →
      (∀ e ∈ entries, e.1 ≠ k) →
      ∃ kvs', res = .obj kvs' ∧ lookupKV kvs' k = lookupKV kvs k := by
  induction entries with
  | nil =>
      intro kvs res k h _
      simp only [deepChangeEntries, Except.ok.injEq] at h
      exact ⟨kvs, h.symm, rfl⟩
  | cons e rest ih =>
      obtain ⟨key, value⟩ := e
      intro kvs res k h hk
      cases hs : deepChangeStep (.obj kvs) key value with
      | error err => simp [deepChangeEntries, hs] at h
      | ok subject1 =>
          simp only [deepChangeEntries, hs] at h
          obtain ⟨kvs1, rfl, hpres⟩ :=
            deepChangeStep_obj_preserves kvs key value subject1 k hs
              (hk (key, value) (by simp))
          obtain ⟨kvs', hres, hpres'⟩ :=
            ih kvs1 res k h (fun e he => hk e (by simp [he]))
          exact ⟨kvs', hres, hpres'.trans hpres⟩

/-- Claim C6: for a mapping state `S` and a mapping-shaped change `R`,
every key of `S` absent from `R` keeps exactly its old binding in the
merge result — the merge never does a wholesale replace at mapping
granularity. -/
theorem merge_preserves_absent_keys (S R : List (String × JVal)) (k : String)
    (res : JVal) (habs : lookupKV R k = none)
    (hmerge : deepChange (.obj S) (.obj R) = .ok res) :
    ∃ kvs', res = .obj kvs' ∧ lookupKV kvs' k = lookupKV S k := by
  have hentries : deepChangeEntries (.obj S) R = .ok res := by
    simpa [deepChange] using hmerge
  exact deepChangeEntries_obj_preserves R S res k hentries
    ((lookupKV_eq_none_iff R k).mp habs)

/-- Witness for `merge_preserves_absent_keys`: merging `{b:"x"}` into
`{a:"a", b:"b"}` leaves key `a` bound to `"a"`. -/
theorem merge_preserves_absent_keys_witness :
    ∃ kvs', (JVal.obj [("a", .str "a"), ("b", .str "x")]) = .obj kvs'
      ∧ lookupKV kvs' "a" = lookupKV [("a", JVal.str "a"), ("b", JVal.str "b")] "a" :=
  merge_preserves_absent_keys [("a", .str "a"), ("b", .str "b")] [("b", .str "x")]
    "a" (.obj [("a", .str "a"), ("b", .str "x")]) rfl
    (by simp [deepChange, deepChangeEntries, deepChangeStep, propRead, lookupKV,
      truthy, typeofObject, isDELETE, assignProp, setKV])

/-- The `operations` loop over an actual array container is the in-order
fold of `applyOneOp` over its elements. -/
theorem runOpsAux_arr (os : List JVal) :
    ∀ (pre : List JVal) (xs : List JVal),
      runOpsAux (.arr (pre ++ os)) pre.length os.length xs
        = os.foldlM (fun acc o => applyOneOp acc o) xs := by
  induction os with
  | nil => intro pre xs; rfl
  | cons o os ih =>
      intro pre xs
      have hidx : indexRead (.arr (pre ++ o :: os)) pre.length = o := by
        simp only [indexRead, List.get?_eq_getElem?]
        rw [List.getElem?_append_right (Nat.le_refl pre.length)]
        simp
      simp only [List.length_cons, runOpsAux, hidx]
      cases hop : applyOneOp xs o with
      | error e => simp only [hop, List.foldlM_cons]; rfl
      | ok xs1 =>
          have hassoc : pre ++ o :: os = (pre ++ [o]) ++ os := by simp
          have hlen : pre.length + 1 = (pre ++ [o]).length := by simp
          simp only [hop, List.foldlM_cons, hassoc, hlen, ih (pre ++ [o]) xs1]
          rfl

/-- Claim C9: for a sequence subject and a change carrying an `operations`
list, the operations are applied in list order against the sequence's
current contents at that point; `push` appends at the end, `unshift`
prepends at the front, `splice(index)` inserts the value before the given
index, and `remove(index)` deletes the element at the given index;
concretely, pushing `"d"` onto `b=["a","b","c"]` yields
`b=["a","b","c","d"]`. -/
theorem array_operations_semantics :
    (∀ (xs ops : List JVal),
        deepChange (.arr xs) (.obj [("operations", .arr ops)])
          = (ops.foldlM (fun acc o => applyOneOp acc o) xs).map JVal.arr)
    ∧ (∀ (xs : List JVal) (v : JVal),
        applyOneOp xs (.obj [("op", .str "push"), ("value", v)]) = .ok (xs ++ [v]))
    ∧ (∀ (xs : List JVal) (v : JVal),
        applyOneOp xs (.obj [("op", .str "unshift"), ("value", v)]) = .ok (v :: xs))
    ∧ (∀ (xs : List JVal) (v : JVal) (i : Nat), i ≤ xs.length →
        applyOneOp xs (.obj [("op", .str "splice"), ("index", .num i), ("value", v)])
          = .ok (xs.insertIdx i v))
    ∧ (∀ (xs : List JVal) (i : Nat), i < xs.length →
        applyOneOp xs (.obj [("op", .str "remove"), ("index", .num i)])
          = .ok (xs.eraseIdx i))
    ∧ deepChange (.obj [("b", .arr [.str "a", .str "b", .str "c"])])
        (.obj [("b", .obj [("operations",
            .arr [.obj [("op", .str "push"), ("value", .str "d")]])])])
        = .ok (.obj [("b", .arr [.str "a", .str "b", .str "c", .str "d"])]) := by
  refine ⟨?_, ?_, ?_, ?_, ?_, ?_⟩
  · intro xs ops
    have h := runOpsAux_arr ops [] xs
    simp only [List.nil_append, List.length_nil] at h
    have hbranch : deepChange (.arr xs) (.obj [("operations", .arr ops)])
        = match runOpsAux (.arr ops) 0 ops.length xs with
          | .error e => .error e
          | .ok final => .ok (.arr final) := by
      simp [deepChange, applyArrayBranch, propRead, lookupKV, truthy, runOps,
        loopLength]
    rw [hbranch, h]
    cases ops.foldlM (fun acc o => applyOneOp acc o) xs <;> simp [Except.map]
  · intro xs v
    rfl
  · intro xs v
    rfl
  · intro xs v i hi
    have hneg : ¬ ((i : Int) < 0) := by omega
    simp [applyOneOp, propRead, lookupKV, jsToInt, spliceIndex, hneg,
      Nat.min_eq_left hi]
  · intro xs i hi
    have hneg : ¬ ((i : Int) < 0) := by omega
    simp [applyOneOp, propRead, lookupKV, jsToInt, spliceIndex, hneg,
      Nat.min_eq_left (Nat.le_of_lt hi)]
  · simp [deepChange, deepChangeEntries, deepChangeStep, applyArrayBranch,
      propRead, lookupKV, truthy, typeofObject, isDELETE, assignProp, setKV,
      runOps, loopLength, runOpsAux, indexRead, applyOneOp]

/-- Witness for `array_operations_semantics`: the splice and remove parts
at concrete in-range indices. -/
theorem array_operations_semantics_witness :
    applyOneOp [JVal.str "a", JVal.str "b"]
        (.obj [("op", .str "splice"), ("index", .num 1), ("value", .str "z")])
      = .ok [JVal.str "a", JVal.str "z", JVal.str "b"]
    ∧ applyOneOp [JVal.str "a", JVal.str "b"]
        (.obj [("op", .str "remove"), ("index", .num 1)])
      = .ok [JVal.str "a"] :=
  ⟨array_operations_semantics.2.2.2.1 [JVal.str "a", JVal.str "b"] (.str "z") 1
      (by decide),
    array_operations_semantics.2.2.2.2.1 [JVal.str "a", JVal.str "b"] 1 (by decide)⟩

theorem applyPatch_nil (doc : JVal) : applyPatch [] doc = .ok doc := rfl

theorem applyPatch_cons (o : POp) (ops : List POp) (doc : JVal) :
    applyPatch (o :: ops) doc
      = match applyOp doc o with
        | .error e => .error e
        | .ok d => applyPatch ops d := by
  cases h : applyOp doc o <;> simp only [applyPatch, List.foldlM_cons, h] <;> rfl

/-- A single top-level `replace` against an object whose key exists sets
exactly that key. -/
theorem applyOp_topReplace (kvs : List (String × JVal)) (k : String) (w : JVal)
    (hparse : parsePointer ("/" ++ k) = some [k])
    (hpres : (lookupKV kvs k).isSome = true) :
    applyOp (.obj kvs) (POp.mk "replace" ("/" ++ k) w "")
      = .ok (.obj (setKV kvs k w)) := by
  obtain ⟨child, hchild⟩ := Option.isSome_iff_exists.mp hpres
  simp [applyOp, hparse, replaceAt, hchild]

/-- A counter-patch made of top-level `replace` operations (at distinct,
existing keys) rewrites exactly the keys it touches and leaves every other
key's binding unchanged. -/
theorem applyPatch_topReplace (ks : List (String × JVal)) :
    ∀ (kvs : List (String × JVal)),
      (∀ kv ∈ ks, parsePointer ("/" ++ kv.1) = some [kv.1]) →
      (ks.map Prod.fst).Nodup →
      (∀ kv ∈ ks, (lookupKV kvs kv.1).isSome = true) →
      ∃ kvs',
        applyPatch (ks.map (fun kv => POp.mk "replace" ("/" ++ kv.1) kv.2 ""))
            (.obj kvs) = .ok (.obj kvs')
        ∧ (∀ kv ∈ ks, lookupKV kvs' kv.1 = some kv.2)
        ∧ (∀ k, (∀ kv ∈ ks, kv.1 ≠ k) → lookupKV kvs' k = lookupKV kvs k) := by
  induction ks with
  | nil =>
      intro kvs _ _ _
      exact ⟨kvs, rfl, by simp, fun k _ => rfl⟩
  | cons hd tl ih =>
      obtain ⟨k0, w0⟩ := hd
      intro kvs hparse hnodup hpres
      have h0 : applyOp (.obj kvs) (POp.mk "replace" ("/" ++ k0) w0 "")
          = .ok (.obj (setKV kvs k0 w0)) :=
        applyOp_topReplace kvs k0 w0 (hparse (k0, w0) (by simp))
          (hpres (k0, w0) (by simp))
      rw [List.map_cons, List.nodup_cons] at hnodup
      have hk0 : ∀ kv ∈ tl, kv.1 ≠ k0 := by
        intro kv hkv heq
        exact hnodup.1 (List.mem_map.mpr ⟨kv, hkv, heq⟩)
      have hpres' : ∀ kv ∈ tl, (lookupKV (setKV kvs k0 w0) kv.1).isSome = true := by
        intro kv hkv
        rw [lookupKV_setKV]
        by_cases h : k0 = kv.1
        · simp [h]
        · simpa [h] using hpres kv (by simp [hkv])
      obtain ⟨kvs', happ, hwin, hkeep⟩ :=
        ih (setKV kvs k0 w0) (fun kv h => hparse kv (by simp [h])) hnodup.2 hpres'
      refine ⟨kvs', ?_, ?_, ?_⟩
      · rw [List.map_cons, applyPatch_cons, h0]
        exact happ
      · intro kv hkv
        rcases List.mem_cons.mp hkv with h | h
        · subst h
          rw [hkeep k0 hk0, lookupKV_setKV]
          simp
        · exact hwin kv h
      · intro k hk
        rw [hkeep k (fun kv hkv => hk kv (by simp [hkv])), lookupKV_setKV]
        have hne : k0 ≠ k := hk (k0, w0) (by simp)
        simp [hne]

/-- Claim C1: for a `change()` whose transport round-trip succeeds, the
remote counter-patch is applied strictly after the local merge — the final
state is exactly `applyPatch` of the counter-patch over the merge result;
at top-level-replace granularity the remote's values win at every key the
counter-patch touches and the merged (caller's) values survive at every
key it does not; concretely, from `{a:"a",b:"b",c:"c"}` with local change
`{a:"not a"}` and counter-patch `[{op:"replace",path:"/b",value:"not b"}]`
the final state is `{a:"not a", b:"not b", c:"c"}`. -/
theorem change_remote_wins :
    (∀ (st : EngineState) (c : JVal) (diff : JVal → JVal → List POp)
        (sp : List POp) (merged fin : JVal),
        deepChange st.object c = .ok merged → applyPatch sp merged = .ok fin →
        (changeModel st c diff (.ok sp)).state.object = fin
          ∧ (changeModel st c diff (.ok sp)).result = .ok fin
          ∧ (changeModel st c diff (.ok sp)).events = [.patchStart, .patchEnd])
    ∧ (∀ (st : EngineState) (c : JVal) (diff : JVal → JVal → List POp)
        (ks kvs : List (String × JVal)),
        deepChange st.object c = .ok (.obj kvs) →
        (∀ kv ∈ ks, parsePointer ("/" ++ kv.1) = some [kv.1]) →
        (ks.map Prod.fst).Nodup →
        (∀ kv ∈ ks, (lookupKV kvs kv.1).isSome = true) →
        ∃ kvs',
          (changeModel st c diff
              (.ok (ks.map (fun kv => POp.mk "replace" ("/" ++ kv.1) kv.2 "")))).state.object
            = .obj kvs'
          ∧ (∀ kv ∈ ks, lookupKV kvs' kv.1 = some kv.2)
          ∧ (∀ k, (∀ kv ∈ ks, kv.1 ≠ k) → lookupKV kvs' k = lookupKV kvs k))
    ∧ ((changeModel ⟨.obj [("a", .str "a"), ("b", .str "b"), ("c", .str "c")], []⟩
          (.obj [("a", .str "not a")]) diff0
          (.ok [POp.mk "replace" "/b" (.str "not b") ""])).state.object
        = .obj [("a", .str "not a"), ("b", .str "not b"), ("c", .str "c")]
      ∧ (changeModel ⟨.obj [("a", .str "a"), ("b", .str "b"), ("c", .str "c")], []⟩
          (.obj [("a", .str "not a")]) diff0
          (.ok [POp.mk "replace" "/b" (.str "not b") ""])).result
        = .ok (.obj [("a", .str "not a"), ("b", .str "not b"), ("c", .str "c")])) := by
  have hpart1 : ∀ (st : EngineState) (c : JVal) (diff : JVal → JVal → List POp)
      (sp : List POp) (merged fin : JVal),
      deepChange st.object c = .ok merged → applyPatch sp merged = .ok fin →
      (changeModel st c diff (.ok sp)).state.object = fin
        ∧ (changeModel st c diff (.ok sp)).result = .ok fin
        ∧ (changeModel st c diff (.ok sp)).events = [.patchStart, .patchEnd] := by
    intro st c diff sp merged fin h1 h2
    refine ⟨?_, ?_, ?_⟩ <;> simp [changeModel, h1, h2]
  refine ⟨hpart1, ?_, ?_⟩
  · intro st c diff ks kvs hmerge hparse hnodup hpres
    obtain ⟨kvs', happ, hwin, hkeep⟩ :=
      applyPatch_topReplace ks kvs hparse hnodup hpres
    exact ⟨kvs',
      (hpart1 st c diff _ (.obj kvs) (.obj kvs') hmerge happ).1, hwin, hkeep⟩
  · have hp : parsePointer "/b" = some ["b"] := rfl
    have hmerge : deepChange
        (.obj [("a", .str "a"), ("b", .str "b"), ("c", .str "c")])
        (.obj [("a", .str "not a")])
        = .ok (.obj [("a", .str "not a"), ("b", .str "b"), ("c", .str "c")]) := by
      simp [deepChange, deepChangeEntries, deepChangeStep, propRead, lookupKV,
        truthy, typeofObject, isDELETE, assignProp, setKV]
    have happ : applyPatch [POp.mk "replace" "/b" (.str "not b") ""]
        (.obj [("a", .str "not a"), ("b", .str "b"), ("c", .str "c")])
        = .ok (.obj [("a", .str "not a"), ("b", .str "not b"), ("c", .str "c")]) := by
      rw [applyPatch_cons]
      simp [applyOp, hp, replaceAt, lookupKV, setKV, applyPatch_nil]
    exact ⟨(hpart1 _ _ _ _ _ _ hmerge happ).1, (hpart1 _ _ _ _ _ _ hmerge happ).2.1⟩

/-- Witness for `change_remote_wins`: the claim's own concrete scenario
run through the top-level-replace part of the theorem. -/
theorem change_remote_wins_witness :
    ∃ kvs',
      (changeModel ⟨.obj [("a", .str "a"), ("b", .str "b"), ("c", .str "c")], []⟩
          (.obj [("a", .str "not a")]) diff0
          (.ok ([(("b" : String), JVal.str "not b")].map
            (fun kv => POp.mk "replace" ("/" ++ kv.1) kv.2 "")))).state.object
        = .obj kvs'
      ∧ (∀ kv ∈ [(("b" : String), JVal.str "not b")], lookupKV kvs' kv.1 = some kv.2)
      ∧ (∀ k, (∀ kv ∈ [(("b" : String), JVal.str "not b")], kv.1 ≠ k) →
          lookupKV kvs' k
            = lookupKV [("a", JVal.str "not a"), ("b", JVal.str "b"),
                ("c", JVal.str "c")] k) :=
  change_remote_wins.2.1
    ⟨.obj [("a", .str "a"), ("b", .str "b"), ("c", .str "c")], []⟩
    (.obj [("a", .str "not a")]) diff0 [(("b" : String), JVal.str "not b")]
    [("a", JVal.str "not a"), ("b", JVal.str "b"), ("c", JVal.str "c")]
    (by simp [deepChange, deepChangeEntries, deepChangeStep, propRead, lookupKV,
      truthy, typeofObject, isDELETE, assignProp, setKV])
    (by intro kv hkv; simp only [List.mem_singleton] at hkv; subst hkv; decide)
    (by decide)
    (by intro kv hkv; simp only [List.mem_singleton] at hkv; subst hkv; decide)

/-- Property reads off a truthy base never throw. -/
theorem propRead_of_truthy (config : JVal) (k : String) (h : truthy config = true) :
    propRead config k = .ok (propGet config k) := by
  cases hr : propRead config k with
  | ok x => simp [propGet, hr]
  | error e =>
      exfalso
      cases config with
      | undefined => simp [truthy] at h
      | null => simp [truthy] at h
      | bool b => simp [propRead] at hr
      | num n => simp [propRead] at hr
      | obj kvs => simp [propRead] at hr
      | str s =>
          simp only [propRead] at hr
          split at hr
          · simp at hr
          · split at hr <;> simp at hr
      | arr xs =>
          simp only [propRead] at hr
          split at hr
          · simp at hr
          · split at hr <;> simp at hr

/-- Claim C7 (amended): construction throws exactly when the config object
itself is absent (falsy), or `config.transport` is truthy and is a string
other than the three recognized tags, or a recognized tag whose required
parameters are missing (`get_url`/`patch_url` for `xmlhttprequest` and
`fetch`; `socket_url`, `get_message`, `patch_message` for `websocket`), or
a truthy value that is neither a string nor `typeof "object"`.  In
particular a config whose `transport` field is absent or falsy constructs
successfully (with no transport at all), and any truthy non-string
`typeof "object"` value is accepted unchecked. -/
theorem construct_error_characterization (config : JVal) :
    (∃ e, construct config = .error e) ↔
      truthy config = false
      ∨ (truthy (propGet config "transport") = true
          ∧ ((∃ s, propGet config "transport" = .str s
                ∧ ((s = "xmlhttprequest" ∨ s = "fetch")
                      ∧ (truthy (propGet config "get_url") = false
                          ∨ truthy (propGet config "patch_url") = false)
                    ∨ (s = "websocket"
                        ∧ (truthy (propGet config "socket_url") = false
                            ∨ truthy (propGet config "get_message") = false
                            ∨ truthy (propGet config "patch_message") = false))
                    ∨ (s ≠ "xmlhttprequest" ∧ s ≠ "fetch" ∧ s ≠ "websocket")))
              ∨ (isStr (propGet config "transport") = false
                  ∧ typeofObject (propGet config "transport") = false))) := by
  by_cases hc : truthy config = true
  · simp only [construct, hc, not_true, if_false, if_neg,
      propRead_of_truthy config _ hc]
    cases ht : propGet config "transport" with
    | undefined => simp [truthy, hc]
    | null => simp [truthy, hc]
    | bool b => cases b <;> simp [truthy, hc, isStr, typeofObject]
    | arr xs => simp [truthy, hc, isStr, typeofObject]
    | obj kvs => simp [truthy, hc, isStr, typeofObject]
    | num n =>
        by_cases hn : n = 0 <;>
          simp [truthy, hc, hn, isStr, typeofObject]
    | str s =>
        by_cases hs0 : s = ""
        · simp [truthy, hc, hs0]
        · by_cases h1 : s = "xmlhttprequest"
          · by_cases hg : truthy (propGet config "get_url") = true <;>
              by_cases hp : truthy (propGet config "patch_url") = true <;>
                simp_all [truthy, isStr, typeofObject]
          · by_cases h2 : s = "fetch"
            · by_cases hg : truthy (propGet config "get_url") = true <;>
                by_cases hp : truthy (propGet config "patch_url") = true <;>
                  simp_all [truthy, isStr, typeofObject]
            · by_cases h3 : s = "websocket"
              · by_cases hsu : truthy (propGet config "socket_url") = true <;>
                  by_cases hgm : truthy (propGet config "get_message") = true <;>
                    by_cases hpm : truthy (propGet config "patch_message") = true <;>
                      simp_all [truthy, isStr, typeofObject]
              · simp_all [truthy, isStr, typeofObject]
  · have hc' : truthy config = false := by
      cases hcc : truthy config
      · rfl
      · exact absurd hcc hc
    simp [construct, hc']

/-- Counterexample for claim C7 as stated: a present config with no
`transport` field constructs successfully (though the claim reads an
absent transport specification as fatal), while `transport: true` — which
names no variant tag and misses no variant parameter — throws. -/
theorem construct_counterexample :
    construct (.obj []) = .ok .noTransport
    ∧ construct (.obj [("transport", .bool true)])
        = .error "Transport must be either an object or a string." := by
  constructor <;> rfl

end PatchedSync
